import Mathlib

/-!
A shallow embedding of the UserScript Settings registry (the `UserScriptSettings`
class of `settings.ts`, found in `src/unnamed/part_002`), together with theorems
settling the specified behaviour of its public API: `defineSetting`, `getSetting`,
`setSetting`, `resetToDefault`, `resetAllToDefaults`, `isDefault`,
`onSettingChange`, `removeSettingChangeListener`, `getAllSettings`, and the
`loadSettings` / `saveSettings` persistence cycle.

Modelling conventions:
* JavaScript scalar setting values (`string | number | boolean`) are the
  inductive type `Value`; numbers are modelled as `Int`.
* A JS `Map` is an insertion-ordered association list; `mapSet` replaces an
  existing key in place and appends a fresh key at the end, exactly the
  semantics of `Map.prototype.set`; `Map.prototype.forEach` iterates in list
  order.
* A JS `Set` of callbacks is an insertion-ordered list of reference identities
  (`Nat`), deduplicated on insertion like `Set.prototype.add`.
* Exceptions (`throw new Error(...)`) become `Except SettingsError`.
* `localStorage` is a field of the state holding the last written snapshot;
  an environment flag `saveFails` says whether `localStorage.setItem` throws
  (e.g. quota exceeded).
* Effects that the source performs but that do not change the modelled state
  (the `saveSettings` call and the synchronous callback invocations) are
  recorded in an event trace, so that their relative order can be stated.
-/

namespace USS

/-- Scalar setting values: the `string | number | boolean` union used for
`defaultValue` and current values throughout `settings.ts`. -/
inductive Value where
  | str : String → Value
  | num : Int → Value
  | bool : Bool → Value
deriving DecidableEq, Repr

/-! ## JSON.stringify on scalar values

`setSetting` decides the `isDefault` flag with
`JSON.stringify(value) === JSON.stringify(defaultValue)` (part_002 line 349).
We embed `JSON.stringify` restricted to the scalar domain: a string is quoted
with `"` and `\` escaped (control-character escapes are omitted; they do not
change the induced equality, which is all the source uses the strings for),
a number prints in decimal with a leading `-` when negative, and a boolean
prints as `true` / `false`. -/

/-- JSON string escaping of one character (quote and backslash). -/
def escChar (c : Char) : List Char :=
  if c = '"' then ['\\', '"']
  else if c = '\\' then ['\\', '\\']
  else [c]

/-- JSON string escaping of a character sequence. -/
def escape : List Char → List Char
  | [] => []
  | c :: cs => escChar c ++ escape cs

/-- Decimal digits of a natural number, most significant first. -/
def natDigits (n : Nat) : List Char :=
  if h : n < 10 then [Nat.digitChar n]
  else natDigits (n / 10) ++ [Nat.digitChar (n % 10)]
termination_by n
decreasing_by exact Nat.div_lt_self (by omega) (by omega)

/-- Decimal rendering of an integer, as JavaScript prints a number. -/
def intRepr (n : Int) : List Char :=
  if n < 0 then '-' :: natDigits n.natAbs else natDigits n.toNat

/-- The character sequence `JSON.stringify` produces for a scalar value. -/
def jsonStringify : Value → List Char
  | .str s => '"' :: (escape s.data ++ ['"'])
  | .num n => intRepr n
  | .bool b => if b then ['t', 'r', 'u', 'e'] else ['f', 'a', 'l', 's', 'e']

/-- The comparison `JSON.stringify(a) === JSON.stringify(b)` from `setSetting`. -/
def jsonEq (a b : Value) : Bool :=
  decide (jsonStringify a = jsonStringify b)

/-- The comparison `JSON.stringify(value) === JSON.stringify(defaultValue)`
where `defaultValue` is `this.defaultSettings.get(key)` and may be `undefined`
(key absent).  `JSON.stringify(undefined)` is `undefined`, while a scalar
stringifies to a string, so the strict equality is then `false`. -/
def jsonEqOptDefault (v : Value) : Option Value → Bool
  | none => false
  | some d => jsonEq v d

/-! ### `JSON.stringify` is injective on scalar values -/

/-- Left inverse of `escape`, used to prove `escape` injective. -/
def unescape : List Char → List Char
  | [] => []
  | c :: cs =>
    if c = '\\' then
      match cs with
      | [] => []
      | d :: ds => d :: unescape ds
    else c :: unescape cs

theorem unescape_escape (l : List Char) : unescape (escape l) = l := by
  induction l with
  | nil => rfl
  | cons c cs ih =>
    by_cases h1 : c = '"'
    · subst h1; simp [escape, escChar, unescape, ih]
    · by_cases h2 : c = '\\'
      · subst h2; simp [escape, escChar, unescape, ih]
      · have e : escape (c :: cs) = c :: escape cs := by simp [escape, escChar, h1, h2]
        rw [e, unescape.eq_def]
        simp only [if_neg h2, ih]

theorem escape_inj {a b : List Char} (h : escape a = escape b) : a = b := by
  have h2 := congrArg unescape h
  rwa [unescape_escape, unescape_escape] at h2

theorem digitChar_toNat {k : Nat} (h : k < 10) : (Nat.digitChar k).toNat = 48 + k := by
  interval_cases k <;> decide

theorem digitChar_isDigit {k : Nat} (h : k < 10) : (Nat.digitChar k).isDigit = true := by
  interval_cases k <;> decide

theorem mem_natDigits_isDigit (n : Nat) :
    ∀ c ∈ natDigits n, c.isDigit = true := by
  induction n using Nat.strong_induction_on with
  | _ n ih =>
    intro c hc
    rw [natDigits] at hc
    split at hc
    · simp only [List.mem_singleton] at hc
      subst hc
      exact digitChar_isDigit (by assumption)
    · rcases List.mem_append.mp hc with h | h
      · exact ih (n / 10) (Nat.div_lt_self (by omega) (by omega)) c h
      · simp only [List.mem_singleton] at h
        subst h
        exact digitChar_isDigit (Nat.mod_lt _ (by omega))

theorem natDigits_ne_nil (n : Nat) : natDigits n ≠ [] := by
  rw [natDigits]; split <;> simp

/-- Value of a digit list presented least-significant first. -/
def unDigitsRev : List Char → Nat
  | [] => 0
  | c :: cs => (c.toNat - 48) + 10 * unDigitsRev cs

theorem unDigitsRev_natDigits (n : Nat) : unDigitsRev (natDigits n).reverse = n := by
  induction n using Nat.strong_induction_on with
  | _ n ih =>
    rw [natDigits]
    split
    · simp [unDigitsRev, digitChar_toNat (by assumption)]
    · rw [List.reverse_append]
      simp [unDigitsRev, digitChar_toNat (Nat.mod_lt _ (by omega)),
        ih (n / 10) (Nat.div_lt_self (by omega) (by omega))]
      omega

theorem natDigits_inj {m n : Nat} (h : natDigits m = natDigits n) : m = n := by
  have h2 := congrArg (fun l => unDigitsRev l.reverse) h
  simpa [unDigitsRev_natDigits] using h2

theorem natDigits_ne_cons_nondigit {n : Nat} {c : Char} {l : List Char}
    (hc : c.isDigit = false) (h : natDigits n = c :: l) : False := by
  have hm : c ∈ natDigits n := by rw [h]; exact List.mem_cons_self _ _
  have h2 := mem_natDigits_isDigit n c hm
  rw [hc] at h2
  cases h2

theorem intRepr_ne_cons_nondigit {n : Int} {c : Char} {l : List Char}
    (hdash : c ≠ '-') (hc : c.isDigit = false) (h : intRepr n = c :: l) : False := by
  unfold intRepr at h
  split at h
  · exact hdash (List.cons_eq_cons.mp h).1.symm
  · exact natDigits_ne_cons_nondigit hc h

theorem intRepr_inj {m n : Int} (h : intRepr m = intRepr n) : m = n := by
  unfold intRepr at h
  split at h <;> split at h
  · rw [List.cons_eq_cons] at h
    have := natDigits_inj h.2
    omega
  · exact absurd h.symm (fun hh => natDigits_ne_cons_nondigit (by decide) hh)
  · exact absurd h (fun hh => natDigits_ne_cons_nondigit (by decide) hh)
  · have := natDigits_inj h
    omega

theorem jsonStringify_inj {a b : Value} (h : jsonStringify a = jsonStringify b) :
    a = b := by
  cases a with
  | str s =>
    cases b with
    | str t =>
      have h2 : escape s.data ++ ['"'] = escape t.data ++ ['"'] :=
        (List.cons_eq_cons.mp h).2
      have h3 := escape_inj (List.append_cancel_right h2)
      have h4 : s = t := by
        cases s
        cases t
        exact congrArg String.mk h3
      exact congrArg Value.str h4
    | num n =>
      exact absurd h.symm (fun hh => intRepr_ne_cons_nondigit (by decide) (by decide) hh)
    | bool c =>
      cases c
      · exact absurd (List.cons_eq_cons.mp h).1 (by decide)
      · exact absurd (List.cons_eq_cons.mp h).1 (by decide)
  | num m =>
    cases b with
    | str t =>
      exact absurd h (fun hh => intRepr_ne_cons_nondigit (by decide) (by decide) hh)
    | num n =>
      exact congrArg Value.num (intRepr_inj h)
    | bool c =>
      cases c
      · exact absurd h (fun hh => intRepr_ne_cons_nondigit (by decide) (by decide) hh)
      · exact absurd h (fun hh => intRepr_ne_cons_nondigit (by decide) (by decide) hh)
  | bool c =>
    cases b with
    | str t =>
      cases c
      · exact absurd (List.cons_eq_cons.mp h).1 (by decide)
      · exact absurd (List.cons_eq_cons.mp h).1 (by decide)
    | num n =>
      cases c
      · exact absurd h.symm (fun hh => intRepr_ne_cons_nondigit (by decide) (by decide) hh)
      · exact absurd h.symm (fun hh => intRepr_ne_cons_nondigit (by decide) (by decide) hh)
    | bool d =>
      cases c <;> cases d
      · rfl
      · exact absurd (List.cons_eq_cons.mp h).1 (by decide)
      · exact absurd (List.cons_eq_cons.mp h).1 (by decide)
      · rfl

theorem jsonEq_iff {a b : Value} : jsonEq a b = true ↔ a = b := by
  constructor
  · intro h
    exact jsonStringify_inj (of_decide_eq_true h)
  · intro h
    subst h
    simp [jsonEq]

theorem jsonEq_eq_decide (a b : Value) : jsonEq a b = decide (a = b) := by
  by_cases h : a = b
  · subst h; simp [jsonEq]
  · rw [decide_eq_false h]
    by_cases h2 : jsonEq a b = true
    · exact absurd (jsonEq_iff.mp h2) h
    · simpa using h2

/-! ## Insertion-ordered maps (the semantics of `Map.prototype`) -/

/-- `Map.prototype.get`: first (unique) entry with the key, if any. -/
def mapGet {α : Type} (m : List (String × α)) (k : String) : Option α :=
  match m with
  | [] => none
  | p :: rest => if p.1 = k then some p.2 else mapGet rest k

/-- `Map.prototype.has`. -/
def mapHas {α : Type} (m : List (String × α)) (k : String) : Bool :=
  (mapGet m k).isSome

/-- `Map.prototype.set`: replaces an existing key in place, appends a new key. -/
def mapSet {α : Type} (m : List (String × α)) (k : String) (v : α) : List (String × α) :=
  match m with
  | [] => [(k, v)]
  | p :: rest => if p.1 = k then (k, v) :: rest else p :: mapSet rest k v

theorem mapGet_mapSet_self {α : Type} (m : List (String × α)) (k : String) (v : α) :
    mapGet (mapSet m k v) k = some v := by
  induction m with
  | nil => simp [mapGet, mapSet]
  | cons p rest ih =>
    by_cases h : p.1 = k
    · simp [mapGet, mapSet, h]
    · simp [mapGet, mapSet, h, ih]

theorem mapGet_mapSet_ne {α : Type} (m : List (String × α)) (k k2 : String) (v : α)
    (h : k ≠ k2) : mapGet (mapSet m k v) k2 = mapGet m k2 := by
  induction m with
  | nil => simp [mapGet, mapSet, h]
  | cons p rest ih =>
    by_cases h2 : p.1 = k
    · subst h2
      simp [mapGet, mapSet, h]
    · simp only [mapSet, h2, if_false, mapGet]
      by_cases h3 : p.1 = k2 <;> simp [h3, ih]

theorem mapHas_mapSet {α : Type} (m : List (String × α)) (k k2 : String) (v : α) :
    mapHas (mapSet m k v) k2 = (decide (k = k2) || mapHas m k2) := by
  by_cases h : k = k2
  · subst h
    simp [mapHas, mapGet_mapSet_self]
  · simp [mapHas, mapGet_mapSet_ne m k k2 v h, h]

theorem mapHas_of_mem {α : Type} (m : List (String × α)) (k : String) (v : α)
    (h : (k, v) ∈ m) : mapHas m k = true := by
  induction m with
  | nil => cases h
  | cons p rest ih =>
    rcases List.mem_cons.mp h with h2 | h2
    · subst h2
      simp [mapHas, mapGet]
    · by_cases h3 : p.1 = k
      · simp [mapHas, mapGet, h3]
      · simpa [mapHas, mapGet, h3] using ih h2

/-! ## Data model (`settings.ts` lines 1-228) -/

/-- Setting kinds (`enum SettingType`). -/
inductive SettingType where
  | dropdown
  | radio
  | checkbox
  | number
  | text
  | color
  | slider
  | custom
deriving DecidableEq, Repr

/-- One `{ value, label }` choice of a dropdown or radio setting. -/
structure Choice where
  value : Value
  label : String

/-- `options.dropdown` / `options.radio`: a list of choices. -/
structure ChoicesOptions where
  choices : List Choice

/-- `options.checkbox`. -/
structure CheckboxOptions where
  label : String

/-- `options.number`; all fields optional. -/
structure NumberOptions where
  min : Option Int := none
  max : Option Int := none
  step : Option Int := none

/-- `options.text`; all fields optional. -/
structure TextOptions where
  multiline : Option Bool := none
  maxLength : Option Int := none
  placeholder : Option String := none

/-- `options.color`. -/
structure ColorOptions where
  format : Option String := none

/-- `options.slider`; `min` and `max` are required, the rest optional. -/
structure SliderOptions where
  min : Int
  max : Int
  step : Option Int := none
  showValue : Option Bool := none

/-- The type-specific constraint bag `SettingOptions<T>`. -/
structure SettingOptions where
  label : Option String := none
  placeholder : Option String := none
  disabled : Option Bool := none
  dropdown : Option ChoicesOptions := none
  radio : Option ChoicesOptions := none
  checkbox : Option CheckboxOptions := none
  number : Option NumberOptions := none
  text : Option TextOptions := none
  color : Option ColorOptions := none
  slider : Option SliderOptions := none

/-- Presentation hints `SettingUIConfig` (not interpreted by the core). -/
structure SettingUIConfig where
  tab : String
  order : Option Int := none
  group : Option String := none
  groupOrder : Option Int := none
  hidden : Option Bool := none
  advanced : Option Bool := none

/-- A setting declaration `SettingDefinition<T>`.  The optional `validator`
is a predicate on values; its reference is stored with the definition. -/
structure SettingDefinition where
  key : String
  defaultValue : Value
  description : Option String := none
  validator : Option (Value → Bool) := none
  type : SettingType
  options : Option SettingOptions := none
  ui : Option SettingUIConfig := none

/-- A stored `SettingValue<T>`: current value plus the `isDefault` flag. -/
structure SettingValue where
  value : Value
  isDefault : Bool
deriving DecidableEq, Repr

/-- The serialized snapshot `SettingsStorage` written to `localStorage`:
a version string and the settings entries (in `Object` key insertion order). -/
structure SettingsStorage where
  version : String
  settings : List (String × SettingValue)
deriving DecidableEq, Repr

/-- What `localStorage.getItem(storageKey)` yields at construction time:
nothing, an unparseable string (`JSON.parse` throws), or a parsed snapshot. -/
inductive StoredData where
  | absent
  | corrupt
  | snapshot (data : SettingsStorage)

/-- Errors thrown by the registry (`throw new Error(...)`), tagged by the
spec's taxonomy: definition-time validation failures versus unknown keys. -/
inductive SettingsError where
  | definitionError (message : String)
  | notFoundError (key : String)
deriving DecidableEq, Repr

/-- The private state of the `UserScriptSettings` instance, together with the
`localStorage` slot for its `storageKey` and an environment flag saying
whether `localStorage.setItem` throws. -/
structure SettingsState where
  settings : List (String × SettingValue)
  changeCallbacks : List (String × List Nat)
  storageKey : String
  version : String
  defaultSettings : List (String × Value)
  settingDefinitions : List (String × SettingDefinition)
  storage : Option SettingsStorage
  saveFails : Bool

/-- Observable effects of one public call, in the order they happen:
the `saveSettings` attempt (with its success), and each synchronous
callback invocation `callback(newValue, oldValue)` (callbacks are named by
their reference identity). -/
inductive Event where
  | save (succeeded : Bool)
  | invoke (callback : Nat) (newValue oldValue : Value)
deriving DecidableEq, Repr

/-! ## Operations (`settings.ts` lines 230-454) -/

/-- `validateSettingDefinition` (lines 263-332): the per-type switch over
`definition.type`.  Note that the optional `validator` field is never
consulted here (nor anywhere else in the class). -/
def validateSettingDefinition (d : SettingDefinition) : Except SettingsError Unit :=
  match d.type with
  | .dropdown =>
    match d.options.bind (fun o => o.dropdown) with
    | none =>
      .error (.definitionError ("Dropdown setting \"" ++ d.key ++ "\" must have choices defined"))
    | some dd =>
      if dd.choices.any (fun c => c.value == d.defaultValue) then .ok ()
      else
        .error (.definitionError ("Default value for dropdown setting \"" ++ d.key ++
          "\" must be one of the defined choices"))
  | .radio =>
    match d.options.bind (fun o => o.radio) with
    | none =>
      .error (.definitionError ("Radio setting \"" ++ d.key ++ "\" must have choices defined"))
    | some rr =>
      if rr.choices.any (fun c => c.value == d.defaultValue) then .ok ()
      else
        .error (.definitionError ("Default value for radio setting \"" ++ d.key ++
          "\" must be one of the defined choices"))
  | .number =>
    match d.defaultValue with
    | .num v =>
      match d.options.bind (fun o => o.number) with
      | none => .ok ()
      | some no =>
        if no.min.elim false (fun m => decide (v < m)) then
          .error (.definitionError ("Default value for number setting \"" ++ d.key ++
            "\" must be >= min value"))
        else if no.max.elim false (fun m => decide (v > m)) then
          .error (.definitionError ("Default value for number setting \"" ++ d.key ++
            "\" must be <= max value"))
        else .ok ()
    | _ =>
      .error (.definitionError ("Number setting \"" ++ d.key ++
        "\" must have a numeric default value"))
  | .slider =>
    match d.defaultValue with
    | .num v =>
      match d.options.bind (fun o => o.slider) with
      | none =>
        .error (.definitionError ("Slider setting \"" ++ d.key ++
          "\" must have slider options defined"))
      | some so =>
        if v < so.min ∨ v > so.max then
          .error (.definitionError ("Default value for slider setting \"" ++ d.key ++
            "\" must be between min and max values"))
        else .ok ()
    | _ =>
      .error (.definitionError ("Slider setting \"" ++ d.key ++
        "\" must have a numeric default value"))
  | .color =>
    match d.defaultValue with
    | .str _ => .ok ()
    | _ =>
      .error (.definitionError ("Color setting \"" ++ d.key ++
        "\" must have a string default value"))
  | .text =>
    match d.defaultValue with
    | .str s =>
      match (d.options.bind (fun o => o.text)).bind (fun t => t.maxLength) with
      | some m =>
        -- `options?.text?.maxLength && ...`: a `maxLength` of `0` is falsy, so
        -- the length check is skipped for it.
        if m ≠ 0 ∧ (s.length : Int) > m then
          .error (.definitionError ("Default value for text setting \"" ++ d.key ++
            "\" exceeds maxLength"))
        else .ok ()
      | none => .ok ()
    | _ =>
      .error (.definitionError ("Text setting \"" ++ d.key ++
        "\" must have a string default value"))
  | .checkbox =>
    match d.defaultValue with
    | .bool _ => .ok ()
    | _ =>
      .error (.definitionError ("Checkbox setting \"" ++ d.key ++
        "\" must have a boolean default value"))
  | .custom => .ok ()

/-- `defineSetting` (lines 250-261): validate, record the default and the
definition (last write wins), and seed the value store with
`{ value: defaultValue, isDefault: true }` only when no value exists yet. -/
def defineSetting (st : SettingsState) (d : SettingDefinition) :
    Except SettingsError SettingsState :=
  match validateSettingDefinition d with
  | .error e => .error e
  | .ok _ =>
    let st1 := { st with
      defaultSettings := mapSet st.defaultSettings d.key d.defaultValue
      settingDefinitions := mapSet st.settingDefinitions d.key d }
    if mapHas st1.settings d.key then .ok st1
    else
      .ok { st1 with
        settings := mapSet st1.settings d.key { value := d.defaultValue, isDefault := true } }

/-- `getSetting` (lines 334-340). -/
def getSetting (st : SettingsState) (key : String) : Except SettingsError Value :=
  match mapGet st.settings key with
  | none => .error (.notFoundError key)
  | some s => .ok s.value

/-- `saveSettings` (lines 444-454): serialize `{ version, settings }` and
write it under `storageKey`; a throwing `setItem` is caught and reported. -/
def saveSettings (st : SettingsState) : SettingsState × List Event :=
  if st.saveFails then (st, [Event.save false])
  else
    ({ st with storage := some { version := st.version, settings := st.settings } },
      [Event.save true])

/-- `setSetting` (lines 342-364): look up the old value (`NotFoundError` if
absent), compute `isDefault` with `JSON.stringify`, replace the stored
`SettingValue`, call `saveSettings`, then invoke every callback registered
for the key with `(value, oldValue)`, in registration order. -/
def setSetting (st : SettingsState) (key : String) (value : Value) :
    Except SettingsError (SettingsState × List Event) :=
  match mapGet st.settings key with
  | none => .error (.notFoundError key)
  | some oldSetting =>
    let defaultValue := mapGet st.defaultSettings key
    let isDefault := jsonEqOptDefault value defaultValue
    let newSetting : SettingValue := { value := value, isDefault := isDefault }
    let st1 := { st with settings := mapSet st.settings key newSetting }
    let saved := saveSettings st1
    let callbackEvents :=
      match mapGet saved.1.changeCallbacks key with
      | none => []
      | some cbs => cbs.map (fun c => Event.invoke c value oldSetting.value)
    .ok (saved.1, saved.2 ++ callbackEvents)

/-- `resetToDefault` (lines 366-372): `NotFoundError` when the key has no
recorded default, otherwise `setSetting(key, defaultValue)`. -/
def resetToDefault (st : SettingsState) (key : String) :
    Except SettingsError (SettingsState × List Event) :=
  match mapGet st.defaultSettings key with
  | none => .error (.notFoundError key)
  | some defaultValue => setSetting st key defaultValue

/-- The `forEach` loop of `resetAllToDefaults`, over a snapshot of the
`defaultSettings` entries; an exception from `setSetting` aborts the rest. -/
def resetAllFrom (st : SettingsState) (pending : List (String × Value))
    (acc : List Event) : Except SettingsError (SettingsState × List Event) :=
  match pending with
  | [] => .ok (st, acc)
  | (k, v) :: rest =>
    match setSetting st k v with
    | .error e => .error e
    | .ok (st1, evts) => resetAllFrom st1 rest (acc ++ evts)

/-- `resetAllToDefaults` (lines 374-378): `setSetting(key, defaultValue)` for
every entry of `defaultSettings`, in insertion order. -/
def resetAllToDefaults (st : SettingsState) :
    Except SettingsError (SettingsState × List Event) :=
  resetAllFrom st st.defaultSettings []

/-- `onSettingChange` (lines 380-385): ensure a callback set exists for the
key and add the callback (`Set.prototype.add`: appended if new, no-op if the
same reference is already present). -/
def onSettingChange (st : SettingsState) (key : String) (callback : Nat) :
    SettingsState :=
  let existing := (mapGet st.changeCallbacks key).getD []
  { st with
    changeCallbacks := mapSet st.changeCallbacks key
      (if existing.contains callback then existing else existing ++ [callback]) }

/-- `removeSettingChangeListener` (lines 387-392): delete by reference
identity; no-op when the key or the callback is unknown. -/
def removeSettingChangeListener (st : SettingsState) (key : String)
    (callback : Nat) : SettingsState :=
  match mapGet st.changeCallbacks key with
  | none => st
  | some cbs =>
    { st with
      changeCallbacks := mapSet st.changeCallbacks key
        (cbs.filter (fun c => c != callback)) }

/-- `isDefault` (lines 394-397): `setting?.isDefault ?? true`. -/
def isDefault (st : SettingsState) (key : String) : Bool :=
  match mapGet st.settings key with
  | none => true
  | some s => s.isDefault

/-- `getAllSettings` (lines 399-405): build a fresh record holding the
definition entries, in map iteration order. -/
def getAllSettings (st : SettingsState) : List (String × SettingDefinition) :=
  st.settingDefinitions.foldl (fun r p => mapSet r p.1 p.2) []

/-- `loadSettings` (lines 420-442), invoked once from the constructor.  A
missing item leaves the store untouched; a parse failure is caught and
answered with `resetAllToDefaults()`; a version mismatch runs
`resetAllToDefaults()` and returns (were that call to throw inside the
`try`, the `catch` would log and run `resetAllToDefaults()` once more,
whose outcome then propagates); a matching snapshot has every entry copied
into the value store verbatim. -/
def loadSettings (st : SettingsState) (stored : StoredData) :
    Except SettingsError (SettingsState × List Event) :=
  match stored with
  | .absent => .ok (st, [])
  | .corrupt => resetAllToDefaults st
  | .snapshot data =>
    if data.version ≠ st.version then
      match resetAllToDefaults st with
      | .ok r => .ok r
      | .error _ => resetAllToDefaults st
    else
      .ok ({ st with
        settings := data.settings.foldl (fun m p => mapSet m p.1 p.2) st.settings }, [])

/-- The field state of a freshly allocated instance, before `loadSettings`
runs: empty maps, the given `storageKey` and `version`, and the durable
medium as the environment provides it. -/
def initialFields (storageKey version : String) (stored : StoredData)
    (saveFails : Bool) : SettingsState :=
  { settings := []
    changeCallbacks := []
    storageKey := storageKey
    version := version
    defaultSettings := []
    settingDefinitions := []
    storage := match stored with
      | .snapshot data => some data
      | _ => none
    saveFails := saveFails }

/-- The private constructor (lines 230-234): fields start as empty maps,
`storageKey` and `version` are stored, and `loadSettings()` runs against
whatever the durable medium holds. -/
def construct (storageKey version : String) (stored : StoredData)
    (saveFails : Bool) : Except SettingsError (SettingsState × List Event) :=
  loadSettings (initialFields storageKey version stored saveFails) stored

/-- The callbacks currently registered for a key, in registration order. -/
def callbacksOf (st : SettingsState) (key : String) : List Nat :=
  (mapGet st.changeCallbacks key).getD []

/-- Whether an `Except` result is a normal return (no exception). -/
def isOk {ε α : Type} : Except ε α → Bool
  | .ok _ => true
  | .error _ => false

/-! ## Helper lemmas about the operations -/

theorem saveSettings_fst_settings (st : SettingsState) :
    (saveSettings st).1.settings = st.settings := by
  unfold saveSettings; split <;> rfl

theorem saveSettings_fst_defaultSettings (st : SettingsState) :
    (saveSettings st).1.defaultSettings = st.defaultSettings := by
  unfold saveSettings; split <;> rfl

theorem saveSettings_fst_changeCallbacks (st : SettingsState) :
    (saveSettings st).1.changeCallbacks = st.changeCallbacks := by
  unfold saveSettings; split <;> rfl

/-- The `SettingValue` that `setSetting` stores (its local `newSetting`). -/
def updatedValue (st : SettingsState) (k : String) (v : Value) : SettingValue :=
  { value := v, isDefault := jsonEqOptDefault v (mapGet st.defaultSettings k) }

/-- The in-memory state after `setSetting` replaces the stored value and
before `saveSettings` runs (its local `st1`). -/
def setSettingMid (st : SettingsState) (k : String) (v : Value) : SettingsState :=
  { st with settings := mapSet st.settings k (updatedValue st k v) }

theorem saveSettings_snd (st : SettingsState) :
    (saveSettings st).2 = [Event.save (!st.saveFails)] := by
  cases hsf : st.saveFails <;> simp [saveSettings, hsf]

theorem setSetting_eq_of_get_some (st : SettingsState) (k : String) (v : Value)
    (old : SettingValue) (hold : mapGet st.settings k = some old) :
    setSetting st k v =
      .ok ((saveSettings (setSettingMid st k v)).1,
        (saveSettings (setSettingMid st k v)).2 ++
          (callbacksOf st k).map (fun c => Event.invoke c v old.value)) := by
  unfold setSetting
  rw [hold]
  simp only [saveSettings_fst_changeCallbacks]
  show Except.ok (_, _ ++ (match mapGet (setSettingMid st k v).changeCallbacks k with
    | none => ([] : List Event)
    | some cbs => cbs.map (fun c => Event.invoke c v old.value))) = _
  have hcb : (setSettingMid st k v).changeCallbacks = st.changeCallbacks := rfl
  rw [hcb]
  unfold callbacksOf
  cases hg : mapGet st.changeCallbacks k with
  | none =>
    simp only [hg, Option.getD_none, List.map_nil]
    rfl
  | some cbs =>
    simp only [hg, Option.getD_some, Prod.mk.injEq, Except.ok.injEq]
    exact ⟨rfl, rfl⟩

theorem setSetting_ok_shape (st : SettingsState) (k : String) (v : Value)
    (st1 : SettingsState) (evts : List Event)
    (h : setSetting st k v = .ok (st1, evts)) :
    ∃ old, mapGet st.settings k = some old ∧
      st1.settings = mapSet st.settings k (updatedValue st k v) ∧
      st1.defaultSettings = st.defaultSettings ∧
      st1.changeCallbacks = st.changeCallbacks := by
  cases hold : mapGet st.settings k with
  | none => unfold setSetting at h; rw [hold] at h; cases h
  | some old =>
    rw [setSetting_eq_of_get_some st k v old hold] at h
    have h2 := Except.ok.inj h
    have hfst : (saveSettings (setSettingMid st k v)).1 = st1 := congrArg Prod.fst h2
    refine ⟨old, rfl, ?_, ?_, ?_⟩ <;> rw [← hfst]
    · rw [saveSettings_fst_settings]
      rfl
    · rw [saveSettings_fst_defaultSettings]
      rfl
    · rw [saveSettings_fst_changeCallbacks]
      rfl

theorem setSetting_ok_of_has (st : SettingsState) (k : String) (v : Value)
    (h : mapHas st.settings k = true) :
    ∃ r, setSetting st k v = .ok r := by
  unfold setSetting
  cases hold : mapGet st.settings k with
  | none => rw [mapHas, hold] at h; cases h
  | some old => exact ⟨_, rfl⟩

theorem defineSetting_ok_shape (st : SettingsState) (d : SettingDefinition)
    (st1 : SettingsState) (h : defineSetting st d = .ok st1) :
    st1.defaultSettings = mapSet st.defaultSettings d.key d.defaultValue ∧
    ((mapHas st.settings d.key = true ∧ st1.settings = st.settings) ∨
     (mapHas st.settings d.key = false ∧
      st1.settings = mapSet st.settings d.key
        { value := d.defaultValue, isDefault := true })) := by
  unfold defineSetting at h
  cases hval : validateSettingDefinition d with
  | error e => rw [hval] at h; cases h
  | ok u =>
    rw [hval] at h
    simp only at h
    split at h
    · cases Except.ok.inj h
      exact ⟨rfl, Or.inl ⟨by assumption, rfl⟩⟩
    · cases Except.ok.inj h
      refine ⟨rfl, Or.inr ⟨?_, rfl⟩⟩
      simp only [Bool.not_eq_true] at *
      assumption

theorem resetAllFrom_ok_shape (pending : List (String × Value)) :
    ∀ st acc st1 evts, resetAllFrom st pending acc = .ok (st1, evts) →
      st1.defaultSettings = st.defaultSettings ∧
      (∀ k, mapHas st.settings k = true → mapHas st1.settings k = true) := by
  induction pending with
  | nil =>
    intro st acc st1 evts h
    unfold resetAllFrom at h
    cases Except.ok.inj h
    exact ⟨rfl, fun k hk => hk⟩
  | cons p rest ih =>
    intro st acc st1 evts h
    unfold resetAllFrom at h
    cases hset : setSetting st p.1 p.2 with
    | error e => rw [hset] at h; cases h
    | ok r =>
      rw [hset] at h
      obtain ⟨old, _, hsettings, hdefaults, _⟩ :=
        setSetting_ok_shape st p.1 p.2 r.1 r.2 (by rw [hset])
      obtain ⟨hd, hs⟩ := ih r.1 (acc ++ r.2) st1 evts h
      refine ⟨by rw [hd, hdefaults], fun k hk => ?_⟩
      apply hs
      rw [hsettings, mapHas_mapSet]
      simp [hk]

theorem resetAllFrom_ok_of (pending : List (String × Value)) :
    ∀ st acc, (∀ p ∈ pending, mapHas st.settings p.1 = true) →
      ∃ r, resetAllFrom st pending acc = .ok r := by
  induction pending with
  | nil => intro st acc _; exact ⟨_, rfl⟩
  | cons p rest ih =>
    intro st acc hall
    obtain ⟨r, hr⟩ := setSetting_ok_of_has st p.1 p.2 (hall p (List.mem_cons_self _ _))
    obtain ⟨old, _, hsettings, _, _⟩ := setSetting_ok_shape st p.1 p.2 r.1 r.2 (by rw [hr])
    obtain ⟨r2, hr2⟩ := ih r.1 (acc ++ r.2) (fun q hq => by
      rw [hsettings, mapHas_mapSet]
      simp [hall q (List.mem_cons_of_mem _ hq)])
    refine ⟨r2, ?_⟩
    unfold resetAllFrom
    rw [hr]
    exact hr2

theorem onSettingChange_settings (st : SettingsState) (k : String) (c : Nat) :
    (onSettingChange st k c).settings = st.settings := rfl

theorem onSettingChange_defaultSettings (st : SettingsState) (k : String) (c : Nat) :
    (onSettingChange st k c).defaultSettings = st.defaultSettings := rfl

theorem removeSettingChangeListener_settings (st : SettingsState) (k : String)
    (c : Nat) : (removeSettingChangeListener st k c).settings = st.settings := by
  unfold removeSettingChangeListener
  cases mapGet st.changeCallbacks k <;> rfl

theorem removeSettingChangeListener_defaultSettings (st : SettingsState)
    (k : String) (c : Nat) :
    (removeSettingChangeListener st k c).defaultSettings = st.defaultSettings := by
  unfold removeSettingChangeListener
  cases mapGet st.changeCallbacks k <;> rfl

theorem resetToDefault_eq (st : SettingsState) (k : String) (dv : Value)
    (h : mapGet st.defaultSettings k = some dv) :
    resetToDefault st k = setSetting st k dv := by
  unfold resetToDefault
  rw [h]

theorem construct_ok_defaultSettings (sk ver : String) (stored : StoredData)
    (sf : Bool) (st : SettingsState) (evts : List Event)
    (h : construct sk ver stored sf = .ok (st, evts)) :
    st.defaultSettings = [] := by
  cases stored with
  | absent =>
    have h2 := Except.ok.inj h
    have h3 : initialFields sk ver .absent sf = st := congrArg Prod.fst h2
    rw [← h3]
    rfl
  | corrupt =>
    have h2 := Except.ok.inj h
    have h3 : initialFields sk ver .corrupt sf = st := congrArg Prod.fst h2
    rw [← h3]
    rfl
  | snapshot data =>
    unfold construct at h
    rw [loadSettings] at h
    split at h
    · have h4 : ([] : List (String × Value)) = st.defaultSettings :=
        congrArg (fun p => p.1.defaultSettings) (Except.ok.inj h)
      exact h4.symm
    · have h4 : ([] : List (String × Value)) = st.defaultSettings :=
        congrArg (fun p => p.1.defaultSettings) (Except.ok.inj h)
      exact h4.symm

/-! ## Reachable states

`Reachable st` says that `st` arises from a constructor run followed by any
sequence of successful public operations. -/

inductive Reachable : SettingsState → Prop where
  | init : ∀ sk ver stored sf st evts,
      construct sk ver stored sf = .ok (st, evts) → Reachable st
  | defined : ∀ st d st1, Reachable st →
      defineSetting st d = .ok st1 → Reachable st1
  | set : ∀ st k v st1 evts, Reachable st →
      setSetting st k v = .ok (st1, evts) → Reachable st1
  | reset : ∀ st k st1 evts, Reachable st →
      resetToDefault st k = .ok (st1, evts) → Reachable st1
  | resetAll : ∀ st st1 evts, Reachable st →
      resetAllToDefaults st = .ok (st1, evts) → Reachable st1
  | subscribe : ∀ st k c, Reachable st → Reachable (onSettingChange st k c)
  | unsubscribe : ∀ st k c, Reachable st →
      Reachable (removeSettingChangeListener st k c)

/-- Every key with a recorded default also has an entry in the value store. -/
def DefaultsSeeded (st : SettingsState) : Prop :=
  ∀ k, mapHas st.defaultSettings k = true → mapHas st.settings k = true

theorem reachable_defaultsSeeded {st : SettingsState} (h : Reachable st) :
    DefaultsSeeded st := by
  induction h with
  | init sk ver stored sf s evts hc =>
    intro k hk
    rw [construct_ok_defaultSettings sk ver stored sf s evts hc] at hk
    simp [mapHas, mapGet] at hk
  | defined s d s1 hr hd ih =>
    obtain ⟨hdef, hcases⟩ := defineSetting_ok_shape s d s1 hd
    intro k hk
    rw [hdef, mapHas_mapSet] at hk
    simp only [Bool.or_eq_true, decide_eq_true_eq] at hk
    rcases hcases with ⟨hhas, hset⟩ | ⟨hhas, hset⟩
    · rw [hset]
      rcases hk with hk | hk
      · rw [← hk]
        exact hhas
      · exact ih k hk
    · rw [hset, mapHas_mapSet]
      simp only [Bool.or_eq_true, decide_eq_true_eq]
      rcases hk with hk | hk
      · exact Or.inl hk
      · exact Or.inr (ih k hk)
  | set s k2 v s1 evts hr hs ih =>
    obtain ⟨old, _, hset, hdef, _⟩ := setSetting_ok_shape s k2 v s1 evts hs
    intro k hk
    rw [hdef] at hk
    rw [hset, mapHas_mapSet]
    simp [ih k hk]
  | reset s k2 s1 evts hr hs ih =>
    unfold resetToDefault at hs
    cases hg : mapGet s.defaultSettings k2 with
    | none => rw [hg] at hs; cases hs
    | some dv =>
      rw [hg] at hs
      obtain ⟨old, _, hset, hdef, _⟩ := setSetting_ok_shape s k2 dv s1 evts hs
      intro k hk
      rw [hdef] at hk
      rw [hset, mapHas_mapSet]
      simp [ih k hk]
  | resetAll s s1 evts hr hs ih =>
    obtain ⟨hd, hmono⟩ := resetAllFrom_ok_shape s.defaultSettings s [] s1 evts hs
    intro k hk
    rw [hd] at hk
    exact hmono k (ih k hk)
  | subscribe s k2 c hr ih =>
    intro k hk
    rw [onSettingChange_defaultSettings] at hk
    rw [onSettingChange_settings]
    exact ih k hk
  | unsubscribe s k2 c hr ih =>
    intro k hk
    rw [removeSettingChangeListener_defaultSettings] at hk
    rw [removeSettingChangeListener_settings]
    exact ih k hk

/-! ## Claim C1: the custom `validator` at definition time -/

/-- A definition whose `validator` rejects every value, including its own
default value; the built-in per-type check for `text` passes. -/
def alwaysFalseDef : SettingDefinition :=
  { key := "customMessage"
    defaultValue := .str "hello"
    validator := some (fun _ => false)
    type := .text }

/-- C1, counterexample.  The claim says that a supplied `validator` is run on
the default value by `defineSetting` and that a `false` result makes the call
fail with a `DefinitionError`.  On the code this is false: `alwaysFalseDef`
carries a validator returning `false` on its default value, yet
`defineSetting` registers it without error and seeds its default. -/
theorem c1_counterexample :
    (defineSetting (initialFields "demo-settings" "1.0.0" .absent false)
        alwaysFalseDef).toOption.map (fun st => getSetting st "customMessage") =
      some (.ok (Value.str "hello")) ∧
    alwaysFalseDef.validator.map (fun f => f alwaysFalseDef.defaultValue) =
      some false :=
  ⟨rfl, rfl⟩

/-- C1, amended: the optional `validator` is stored with the definition but
never invoked: `validateSettingDefinition` and the success of `defineSetting`
are unchanged under replacing the validator by anything whatsoever, so a
validator returning `false` cannot make `defineSetting` fail. -/
theorem c1_validator_never_run (st : SettingsState) (d : SettingDefinition)
    (f : Option (Value → Bool)) :
    validateSettingDefinition { d with validator := f } =
      validateSettingDefinition d ∧
    isOk (defineSetting st { d with validator := f }) =
      isOk (defineSetting st d) := by
  cases d with
  | mk dk dv dd dvl dt dopts dui =>
    have hv : validateSettingDefinition
        { SettingDefinition.mk dk dv dd dvl dt dopts dui with validator := f } =
        validateSettingDefinition (SettingDefinition.mk dk dv dd dvl dt dopts dui) := rfl
    refine ⟨hv, ?_⟩
    unfold defineSetting
    rw [hv]
    cases validateSettingDefinition (SettingDefinition.mk dk dv dd dvl dt dopts dui) with
    | error e => rfl
    | ok u =>
      by_cases hh : mapHas st.settings dk = true
      · simp [hh, isOk]
      · simp [hh, isOk]

/-! ## Claim C2: persisted values versus `defineSetting` -/

/-- A snapshot persisting `theme` with its future default value but with
`isDefault` recorded as `false`. -/
def c2Snapshot : SettingsStorage :=
  { version := "1.0.0"
    settings := [("theme", { value := .str "light", isDefault := false })] }

/-- A valid `text` definition for `theme` whose default is `"light"`. -/
def themeTextDef : SettingDefinition :=
  { key := "theme", defaultValue := .str "light", type := .text }

/-- C2, counterexample.  The claim says the stored `isDefault` flag is
recomputed by deep equality against the current default when a persisted
value already exists.  On the code it is not: after loading a matching
snapshot holding `("theme", value "light", isDefault false)` and defining
`theme` with default `"light"`, the stored flag is still `false`, although
the persisted value deep-equals the current default. -/
theorem c2_counterexample :
    ((construct "demo-settings" "1.0.0" (.snapshot c2Snapshot) false).bind
        (fun r => defineSetting r.1 themeTextDef)).toOption.map
      (fun st => (mapGet st.settings "theme", mapGet st.defaultSettings "theme")) =
      some (some { value := Value.str "light", isDefault := false },
        some (Value.str "light")) ∧
    jsonEq (Value.str "light") (Value.str "light") = true :=
  ⟨rfl, rfl⟩

/-- C2, amended: when a value already exists for the key, `defineSetting`
leaves the value store entirely unchanged — the persisted value wins and its
`isDefault` flag is kept exactly as persisted, not recomputed; when no value
exists, the key is seeded with the default value and `isDefault = true`. -/
theorem c2_persisted_kept (st : SettingsState) (d : SettingDefinition)
    (st1 : SettingsState) (h : defineSetting st d = .ok st1) :
    (mapHas st.settings d.key = true → st1.settings = st.settings) ∧
    (mapHas st.settings d.key = false →
      mapGet st1.settings d.key =
        some { value := d.defaultValue, isDefault := true }) := by
  obtain ⟨hdef, hcases⟩ := defineSetting_ok_shape st d st1 h
  constructor
  · intro hh
    rcases hcases with ⟨_, hset⟩ | ⟨hh2, _⟩
    · exact hset
    · rw [hh] at hh2; cases hh2
  · intro hh
    rcases hcases with ⟨hh2, _⟩ | ⟨_, hset⟩
    · rw [hh] at hh2; cases hh2
    · rw [hset, mapGet_mapSet_self]

/-- The state after defining `theme` on a fresh instance. -/
def c2DefinedState : SettingsState :=
  { settings := [("theme", { value := Value.str "light", isDefault := true })]
    changeCallbacks := []
    storageKey := "demo-settings"
    version := "1.0.0"
    defaultSettings := [("theme", Value.str "light")]
    settingDefinitions := [("theme", themeTextDef)]
    storage := none
    saveFails := false }

/-- Witness for `c2_persisted_kept` at a concrete fresh instance. -/
theorem c2_witness :
    defineSetting (initialFields "demo-settings" "1.0.0" .absent false)
      themeTextDef = .ok c2DefinedState ∧
    mapHas (initialFields "demo-settings" "1.0.0" .absent false).settings
      "theme" = false ∧
    mapGet c2DefinedState.settings "theme" =
      some { value := Value.str "light", isDefault := true } :=
  ⟨rfl, rfl,
    (c2_persisted_kept (initialFields "demo-settings" "1.0.0" .absent false)
      themeTextDef c2DefinedState rfl).2 rfl⟩

/-! ## Claim C3: `getSetting` and never-defined keys -/

/-- A matching-version snapshot holding a key that is never defined. -/
def c3Snapshot : SettingsStorage :=
  { version := "1.0.0"
    settings := [("ghost", { value := Value.num 5, isDefault := false })] }

/-- C3, counterexample.  The claim says `getSetting(key)` fails with a
`NotFoundError` exactly when `key` was never defined, even when a persisted
snapshot contains entries for undefined keys.  On the code this is false:
after loading a matching snapshot containing `ghost`, which is never defined
(the definition registry stays empty), `getSetting "ghost"` succeeds and
returns the persisted value. -/
theorem c3_counterexample :
    (construct "demo-settings" "1.0.0" (.snapshot c3Snapshot) false).toOption.map
        (fun r => (getSetting r.1 "ghost", r.1.settingDefinitions.length)) =
      some (.ok (Value.num 5), 0) :=
  rfl

/-- C3, amended: `getSetting st key` fails with `NotFoundError` exactly when
the key is absent from the value store — never defined and not loaded from a
version-matching persisted snapshot; when the key is present, the stored
value is returned. -/
theorem c3_getSetting_iff_store (st : SettingsState) (key : String) :
    (getSetting st key = .error (.notFoundError key) ↔
      mapGet st.settings key = none) ∧
    (∀ sv, mapGet st.settings key = some sv → getSetting st key = .ok sv.value) := by
  unfold getSetting
  cases hg : mapGet st.settings key with
  | none =>
    refine ⟨⟨fun _ => rfl, fun _ => rfl⟩, ?_⟩
    intro sv hsv
    cases hsv
  | some sv0 =>
    constructor
    · constructor
      · intro hE
        cases hE
      · intro hN
        cases hN
    · intro sv hsv
      rw [Option.some.inj hsv]

/-- The state after loading the `ghost` snapshot at construction. -/
def c3LoadedState : SettingsState :=
  { settings := [("ghost", { value := Value.num 5, isDefault := false })]
    changeCallbacks := []
    storageKey := "demo-settings"
    version := "1.0.0"
    defaultSettings := []
    settingDefinitions := []
    storage := some c3Snapshot
    saveFails := false }

/-- Witness for `c3_getSetting_iff_store` at the loaded state. -/
theorem c3_witness :
    getSetting c3LoadedState "ghost" = .ok (Value.num 5) :=
  (c3_getSetting_iff_store c3LoadedState "ghost").2
    { value := Value.num 5, isDefault := false } rfl

/-! ## Claim C4: version mismatch discards the snapshot -/

/-- Registering a list of definitions one after the other, stopping at the
first `DefinitionError`. -/
def foldDefine : SettingsState → List SettingDefinition →
    Except SettingsError SettingsState
  | st, [] => .ok st
  | st, d :: rest =>
    match defineSetting st d with
    | .error e => .error e
    | .ok st1 => foldDefine st1 rest

theorem defineSetting_settings_preserve (st : SettingsState)
    (d : SettingDefinition) (st1 : SettingsState)
    (h : defineSetting st d = .ok st1) (k : String) (hk : d.key ≠ k) :
    mapGet st1.settings k = mapGet st.settings k := by
  obtain ⟨_, hcases⟩ := defineSetting_ok_shape st d st1 h
  rcases hcases with ⟨_, hset⟩ | ⟨_, hset⟩
  · rw [hset]
  · rw [hset, mapGet_mapSet_ne _ _ _ _ hk]

theorem foldDefine_preserve (ds : List SettingDefinition) :
    ∀ st stf, foldDefine st ds = .ok stf →
      ∀ k, (∀ d ∈ ds, d.key ≠ k) →
        mapGet stf.settings k = mapGet st.settings k := by
  induction ds with
  | nil =>
    intro st stf h k _
    unfold foldDefine at h
    cases Except.ok.inj h
    rfl
  | cons d rest ih =>
    intro st stf h k hk
    unfold foldDefine at h
    cases hd : defineSetting st d with
    | error e => rw [hd] at h; cases h
    | ok st1 =>
      rw [hd] at h
      rw [ih st1 stf h k (fun d2 h2 => hk d2 (List.mem_cons_of_mem _ h2))]
      exact defineSetting_settings_preserve st d st1 hd k (hk d (List.mem_cons_self _ _))

theorem foldDefine_seeds (ds : List SettingDefinition) :
    ∀ st stf, foldDefine st ds = .ok stf →
      (ds.map (fun d => d.key)).Nodup →
      (∀ d ∈ ds, mapHas st.settings d.key = false) →
      ∀ d ∈ ds, mapGet stf.settings d.key =
        some { value := d.defaultValue, isDefault := true } := by
  induction ds with
  | nil =>
    intro st stf h _ _ d hd
    cases hd
  | cons d0 rest ih =>
    intro st stf h hnodup hfresh d hd
    unfold foldDefine at h
    cases hd0 : defineSetting st d0 with
    | error e => rw [hd0] at h; cases h
    | ok st1 =>
      rw [hd0] at h
      obtain ⟨hdef, hcases⟩ := defineSetting_ok_shape st d0 st1 hd0
      have hfresh0 := hfresh d0 (List.mem_cons_self _ _)
      rcases hcases with ⟨hh, _⟩ | ⟨_, hset⟩
      · rw [hfresh0] at hh; cases hh
      · rcases List.mem_cons.mp hd with heq | hd2
        · subst heq
          have hnotin := (List.nodup_cons.mp hnodup).1
          have hpres : mapGet stf.settings d.key = mapGet st1.settings d.key := by
            apply foldDefine_preserve rest st1 stf h
            intro d2 h2 heq2
            apply hnotin
            show d.key ∈ List.map (fun d => d.key) rest
            rw [← heq2]
            exact List.mem_map_of_mem _ h2
          rw [hpres, hset, mapGet_mapSet_self]
        · apply ih st1 stf h (List.nodup_cons.mp hnodup).2 ?_ d hd2
          intro d2 h2
          have h3 := hfresh d2 (List.mem_cons_of_mem _ h2)
          have hne : d0.key ≠ d2.key := by
            intro heq
            apply (List.nodup_cons.mp hnodup).1
            show d0.key ∈ List.map (fun d => d.key) rest
            rw [heq]
            exact List.mem_map_of_mem _ h2
          rw [hset, mapHas_mapSet]
          simp [hne, h3]

theorem construct_mismatch (sk ver : String) (sf : Bool) (data : SettingsStorage)
    (hv : data.version ≠ ver) :
    construct sk ver (.snapshot data) sf =
      .ok (initialFields sk ver (.snapshot data) sf, []) := by
  unfold construct
  rw [loadSettings,
    if_pos (show data.version ≠ (initialFields sk ver (.snapshot data) sf).version from hv)]
  rfl

/-- C4: if the persisted snapshot's `version` differs from the configured
version, the snapshot is wholly discarded — the constructed value store is
empty — and after registering any definitions (with pairwise distinct keys)
every defined setting holds its `defaultValue` with `isDefault = true`. -/
theorem c4_version_mismatch_resets (sk ver : String) (sf : Bool)
    (data : SettingsStorage) (ds : List SettingDefinition)
    (st0 : SettingsState) (evts : List Event) (stf : SettingsState)
    (hv : data.version ≠ ver)
    (hc : construct sk ver (.snapshot data) sf = .ok (st0, evts))
    (hnodup : (ds.map (fun d => d.key)).Nodup)
    (hf : foldDefine st0 ds = .ok stf) :
    st0.settings = [] ∧
    ∀ d ∈ ds, getSetting stf d.key = .ok d.defaultValue ∧
      isDefault stf d.key = true := by
  rw [construct_mismatch sk ver sf data hv] at hc
  have h2 := Except.ok.inj hc
  have hst0 : initialFields sk ver (.snapshot data) sf = st0 := congrArg Prod.fst h2
  have hempty : st0.settings = [] := by rw [← hst0]; rfl
  refine ⟨hempty, fun d hd => ?_⟩
  have hseed := foldDefine_seeds ds st0 stf hf hnodup
    (fun d2 _ => by rw [mapHas, hempty]; rfl) d hd
  constructor
  · unfold getSetting
    rw [hseed]
  · unfold isDefault
    rw [hseed]

/-- A snapshot written by an older version of the script. -/
def c4Snapshot : SettingsStorage :=
  { version := "0.9.0"
    settings := [("theme", { value := Value.str "dark", isDefault := false })] }

/-- A valid checkbox definition for `autoSave`. -/
def autoSaveDef : SettingDefinition :=
  { key := "autoSave", defaultValue := .bool true, type := .checkbox }

/-- The state after constructing against the stale snapshot and defining
`theme` and `autoSave`. -/
def c4FinalState : SettingsState :=
  { settings := [("theme", { value := Value.str "light", isDefault := true }),
      ("autoSave", { value := Value.bool true, isDefault := true })]
    changeCallbacks := []
    storageKey := "demo-settings"
    version := "1.0.0"
    defaultSettings := [("theme", Value.str "light"), ("autoSave", Value.bool true)]
    settingDefinitions := [("theme", themeTextDef), ("autoSave", autoSaveDef)]
    storage := some c4Snapshot
    saveFails := false }

/-- Witness for `c4_version_mismatch_resets`: a `0.9.0` snapshot holding a
dark theme is discarded by a `1.0.0` registry, and both subsequently defined
settings come out at their defaults. -/
theorem c4_witness :
    c4Snapshot.version ≠ "1.0.0" ∧
    construct "demo-settings" "1.0.0" (.snapshot c4Snapshot) false =
      .ok (initialFields "demo-settings" "1.0.0" (.snapshot c4Snapshot) false, []) ∧
    (([themeTextDef, autoSaveDef].map (fun d => d.key)).Nodup) ∧
    foldDefine (initialFields "demo-settings" "1.0.0" (.snapshot c4Snapshot) false)
      [themeTextDef, autoSaveDef] = .ok c4FinalState ∧
    ((initialFields "demo-settings" "1.0.0" (.snapshot c4Snapshot) false).settings = [] ∧
      ∀ d ∈ [themeTextDef, autoSaveDef],
        getSetting c4FinalState d.key = .ok d.defaultValue ∧
        isDefault c4FinalState d.key = true) :=
  ⟨by decide, rfl, by decide, rfl,
    c4_version_mismatch_resets "demo-settings" "1.0.0" false c4Snapshot
      [themeTextDef, autoSaveDef]
      (initialFields "demo-settings" "1.0.0" (.snapshot c4Snapshot) false) []
      c4FinalState (by decide) rfl (by decide) rfl⟩

theorem setSetting_result_get (st : SettingsState) (k : String) (v : Value) :
    getSetting (saveSettings (setSettingMid st k v)).1 k = .ok v ∧
    isDefault (saveSettings (setSettingMid st k v)).1 k =
      jsonEqOptDefault v (mapGet st.defaultSettings k) := by
  have hms : (setSettingMid st k v).settings =
      mapSet st.settings k (updatedValue st k v) := rfl
  constructor
  · unfold getSetting
    rw [saveSettings_fst_settings, hms, mapGet_mapSet_self]
    rfl
  · unfold isDefault
    rw [saveSettings_fst_settings, hms, mapGet_mapSet_self]
    rfl

/-! ## Claim C5: set order — compute, store, persist, then notify -/

/-- C5: for a defined key, `setSetting` computes the new `isDefault` flag by
deep equality against the definition's default, replaces the stored
`SettingValue`, triggers the persistence save, and then synchronously
invokes every callback subscribed to the key with `(newValue, previousValue)`
in registration order (persist-before-notify, shown by the event trace);
`onSettingChange` appends a fresh callback at the end of the key's list. -/
theorem c5_set_persist_then_notify (st : SettingsState) (key : String)
    (v : Value) (old : SettingValue) (dv : Value)
    (hold : mapGet st.settings key = some old)
    (hdv : mapGet st.defaultSettings key = some dv) :
    setSetting st key v =
      .ok ((saveSettings (setSettingMid st key v)).1,
        Event.save (!st.saveFails) ::
          (callbacksOf st key).map (fun c => Event.invoke c v old.value)) ∧
    updatedValue st key v = { value := v, isDefault := decide (v = dv) } ∧
    (∀ c, (callbacksOf st key).contains c = false →
      callbacksOf (onSettingChange st key c) key = callbacksOf st key ++ [c]) := by
  refine ⟨?_, ?_, ?_⟩
  · rw [setSetting_eq_of_get_some st key v old hold, saveSettings_snd]
    rfl
  · unfold updatedValue
    rw [hdv]
    show SettingValue.mk v (jsonEq v dv) = _
    rw [jsonEq_eq_decide]
  · intro c hc
    unfold callbacksOf at hc ⊢
    show (mapGet (onSettingChange st key c).changeCallbacks key).getD [] = _
    have hcc : (onSettingChange st key c).changeCallbacks =
        mapSet st.changeCallbacks key
          (if ((mapGet st.changeCallbacks key).getD []).contains c
            then (mapGet st.changeCallbacks key).getD []
            else (mapGet st.changeCallbacks key).getD [] ++ [c]) := rfl
    rw [hcc, mapGet_mapSet_self, hc]
    rfl

/-- The state just before the C5 witness calls `setSetting`: `theme` is
defined at `"light"` and two callbacks are registered on it. -/
def c5State : SettingsState :=
  { settings := [("theme", { value := Value.str "light", isDefault := true })]
    changeCallbacks := [("theme", [7, 8])]
    storageKey := "demo-settings"
    version := "1.0.0"
    defaultSettings := [("theme", Value.str "light")]
    settingDefinitions := [("theme", themeTextDef)]
    storage := none
    saveFails := false }

/-- Witness for `c5_set_persist_then_notify`: both registered callbacks are
invoked with `("dark", "light")`, in registration order, after the save. -/
theorem c5_witness :
    mapGet c5State.settings "theme" =
      some { value := Value.str "light", isDefault := true } ∧
    mapGet c5State.defaultSettings "theme" = some (Value.str "light") ∧
    setSetting c5State "theme" (Value.str "dark") =
      .ok ((saveSettings (setSettingMid c5State "theme" (Value.str "dark"))).1,
        [Event.save true,
          Event.invoke 7 (Value.str "dark") (Value.str "light"),
          Event.invoke 8 (Value.str "dark") (Value.str "light")]) ∧
    callbacksOf (onSettingChange c5State "theme" 9) "theme" = [7, 8, 9] := by
  refine ⟨rfl, rfl, ?_, ?_⟩
  · exact (c5_set_persist_then_notify c5State "theme" (Value.str "dark")
      { value := Value.str "light", isDefault := true } (Value.str "light") rfl rfl).1
  · exact (c5_set_persist_then_notify c5State "theme" (Value.str "dark")
      { value := Value.str "light", isDefault := true } (Value.str "light") rfl rfl).2.2 9 rfl

/-! ## Claim C6: `resetToDefault` -/

/-- C6: for a key with a recorded default, `resetToDefault` is literally
`setSetting(key, defaultValue)`; afterwards `getSetting` returns the default
value and `isDefault` is `true`, whatever was stored before; for a key that
was never defined it fails with `NotFoundError`. -/
theorem c6_reset_equiv (st : SettingsState) (key : String) :
    (∀ dv, mapGet st.defaultSettings key = some dv →
      resetToDefault st key = setSetting st key dv) ∧
    (∀ dv old, mapGet st.defaultSettings key = some dv →
      mapGet st.settings key = some old →
      ∃ st2 evts, resetToDefault st key = .ok (st2, evts) ∧
        getSetting st2 key = .ok dv ∧ isDefault st2 key = true) ∧
    (mapGet st.defaultSettings key = none →
      resetToDefault st key = .error (.notFoundError key)) := by
  refine ⟨?_, ?_, ?_⟩
  · intro dv hdv
    exact resetToDefault_eq st key dv hdv
  · intro dv old hdv hold
    rw [resetToDefault_eq st key dv hdv,
      setSetting_eq_of_get_some st key dv old hold]
    refine ⟨_, _, rfl, (setSetting_result_get st key dv).1, ?_⟩
    rw [(setSetting_result_get st key dv).2, hdv]
    show jsonEq dv dv = true
    rw [jsonEq_eq_decide]
    simp
  · intro hnone
    unfold resetToDefault
    rw [hnone]

/-- A state in which `refreshInterval` currently holds a non-default value. -/
def c6State : SettingsState :=
  { settings := [("refreshInterval", { value := Value.num 10000, isDefault := false })]
    changeCallbacks := []
    storageKey := "demo-settings"
    version := "1.0.0"
    defaultSettings := [("refreshInterval", Value.num 5000)]
    settingDefinitions := []
    storage := none
    saveFails := false }

/-- Witness for `c6_reset_equiv` at a concrete non-default state, together
with the `NotFoundError` branch for an undefined key. -/
theorem c6_witness :
    mapGet c6State.defaultSettings "refreshInterval" = some (Value.num 5000) ∧
    mapGet c6State.settings "refreshInterval" =
      some { value := Value.num 10000, isDefault := false } ∧
    resetToDefault c6State "refreshInterval" =
      setSetting c6State "refreshInterval" (Value.num 5000) ∧
    (∃ st2 evts, resetToDefault c6State "refreshInterval" = .ok (st2, evts) ∧
      getSetting st2 "refreshInterval" = .ok (Value.num 5000) ∧
      isDefault st2 "refreshInterval" = true) ∧
    mapGet c6State.defaultSettings "nope" = none ∧
    resetToDefault c6State "nope" = .error (.notFoundError "nope") := by
  refine ⟨rfl, rfl, ?_, ?_, rfl, ?_⟩
  · exact (c6_reset_equiv c6State "refreshInterval").1 (Value.num 5000) rfl
  · exact (c6_reset_equiv c6State "refreshInterval").2.1 (Value.num 5000)
      { value := Value.num 10000, isDefault := false } rfl rfl
  · exact (c6_reset_equiv c6State "nope").2.2 rfl

/-! ## Claim C7: typed round-trip and the `isDefault` equivalence -/

/-- Whether two scalar values belong to the same scalar type of the
`string | number | boolean` union. -/
def sameScalarKind (a b : Value) : Bool :=
  match a, b with
  | .str _, .str _ => true
  | .num _, .num _ => true
  | .bool _, .bool _ => true
  | _, _ => false

/-- C7: for a defined key and any value of the key's declared scalar type
(expressed as: of the same scalar kind as the stored default, which the
definition-time check ties to the declared type), `setSetting` followed by
`getSetting` returns exactly that value, and `isDefault` afterwards is
`true` iff the value deep-equals the definition's default. -/
theorem c7_roundtrip (st : SettingsState) (key : String) (v : Value)
    (old : SettingValue) (dv : Value)
    (hold : mapGet st.settings key = some old)
    (hdv : mapGet st.defaultSettings key = some dv)
    (hkind : sameScalarKind v dv = true) :
    ∃ st2 evts, setSetting st key v = .ok (st2, evts) ∧
      getSetting st2 key = .ok v ∧
      (isDefault st2 key = true ↔ v = dv) := by
  rw [setSetting_eq_of_get_some st key v old hold]
  refine ⟨_, _, rfl, (setSetting_result_get st key v).1, ?_⟩
  rw [(setSetting_result_get st key v).2, hdv]
  show jsonEq v dv = true ↔ v = dv
  exact jsonEq_iff

/-- A state in which `maxResults` is defined with default `50`. -/
def c7State : SettingsState :=
  { settings := [("maxResults", { value := Value.num 50, isDefault := true })]
    changeCallbacks := []
    storageKey := "demo-settings"
    version := "1.0.0"
    defaultSettings := [("maxResults", Value.num 50)]
    settingDefinitions := []
    storage := none
    saveFails := false }

/-- Witness for `c7_roundtrip`: setting `80` on `maxResults` round-trips. -/
theorem c7_witness :
    mapGet c7State.settings "maxResults" =
      some { value := Value.num 50, isDefault := true } ∧
    mapGet c7State.defaultSettings "maxResults" = some (Value.num 50) ∧
    sameScalarKind (Value.num 80) (Value.num 50) = true ∧
    (∃ st2 evts, setSetting c7State "maxResults" (Value.num 80) = .ok (st2, evts) ∧
      getSetting st2 "maxResults" = .ok (Value.num 80) ∧
      (isDefault st2 "maxResults" = true ↔ Value.num 80 = Value.num 50)) :=
  ⟨rfl, rfl, rfl,
    c7_roundtrip c7State "maxResults" (Value.num 80)
      { value := Value.num 50, isDefault := true } (Value.num 50) rfl rfl rfl⟩

/-! ## Claim C8: a failed durable write does not roll back memory -/

/-- C8: when the durable-storage write performed by `saveSettings` fails,
`setSetting` still returns normally (the failure is caught and reported by
the save attempt, recorded as `Event.save false`), the in-memory store holds
the new value for the key, and the persisted snapshot is left unchanged —
memory and storage diverge rather than rolling back. -/
theorem c8_failed_save_keeps_memory (st : SettingsState) (key : String)
    (v : Value) (old : SettingValue)
    (hfail : st.saveFails = true)
    (hold : mapGet st.settings key = some old) :
    ∃ st2 evts, setSetting st key v = .ok (st2, evts) ∧
      mapGet st2.settings key = some (updatedValue st key v) ∧
      (updatedValue st key v).value = v ∧
      st2.storage = st.storage ∧
      evts.head? = some (Event.save false) := by
  rw [setSetting_eq_of_get_some st key v old hold]
  refine ⟨_, _, rfl, ?_, rfl, ?_, ?_⟩
  · rw [saveSettings_fst_settings]
    show mapGet (mapSet st.settings key (updatedValue st key v)) key = _
    rw [mapGet_mapSet_self]
  · unfold saveSettings
    rw [if_pos (show (setSettingMid st key v).saveFails = true from hfail)]
    rfl
  · rw [saveSettings_snd]
    show (Event.save (!(setSettingMid st key v).saveFails) :: _).head? = _
    rw [show (setSettingMid st key v).saveFails = true from hfail]
    rfl

/-- A state whose environment makes `localStorage.setItem` throw. -/
def c8State : SettingsState :=
  { settings := [("autoSave", { value := Value.bool true, isDefault := true })]
    changeCallbacks := []
    storageKey := "demo-settings"
    version := "1.0.0"
    defaultSettings := [("autoSave", Value.bool true)]
    settingDefinitions := []
    storage := some
      { version := "1.0.0",
        settings := [("autoSave", { value := Value.bool true, isDefault := true })] }
    saveFails := true }

/-- Witness for `c8_failed_save_keeps_memory` under a throwing `setItem`. -/
theorem c8_witness :
    c8State.saveFails = true ∧
    mapGet c8State.settings "autoSave" =
      some { value := Value.bool true, isDefault := true } ∧
    (∃ st2 evts, setSetting c8State "autoSave" (Value.bool false) = .ok (st2, evts) ∧
      mapGet st2.settings "autoSave" =
        some (updatedValue c8State "autoSave" (Value.bool false)) ∧
      (updatedValue c8State "autoSave" (Value.bool false)).value = Value.bool false ∧
      st2.storage = c8State.storage ∧
      evts.head? = some (Event.save false)) :=
  ⟨rfl, rfl,
    c8_failed_save_keeps_memory c8State "autoSave" (Value.bool false)
      { value := Value.bool true, isDefault := true } rfl rfl⟩

/-! ## Claim C9: `getAllSettings` returns a snapshot record

`getAllSettings` builds a fresh record object (`result = {}` plus one
assignment per map entry), so entry-level edits to the returned record never
reach the registry.  The definition objects stored in the record, however,
are the very objects held by the registry's map — JavaScript assignment
copies references, not objects.  To state this aliasing, the definition
registry component is given an explicit object heap: definitions are stored
by reference (an index into the heap), `regGetAll` returns a fresh record
listing the same references, and `heapWrite` models an in-place property
assignment performed through any alias of a definition object. -/

/-- The definition registry under the heap view. -/
structure DefRegistry where
  heap : List SettingDefinition
  index : List (String × Nat)

/-- The registration step of `defineSetting` under the heap view: the
caller's definition object itself is kept; the map holds a reference. -/
def regDefine (r : DefRegistry) (d : SettingDefinition) : DefRegistry :=
  { heap := r.heap ++ [d], index := mapSet r.index d.key r.heap.length }

/-- `getAllSettings` under the heap view: a fresh record built by one
assignment per entry of the map, holding the registry's references. -/
def regGetAll (r : DefRegistry) : List (String × Nat) :=
  r.index.foldl (fun acc p => mapSet acc p.1 p.2) []

/-- In-place mutation of the definition object at reference `ref`, as a JS
property assignment through any alias of that object performs. -/
def heapWrite (r : DefRegistry) (ref : Nat) (d : SettingDefinition) :
    DefRegistry :=
  { r with heap := r.heap.set ref d }

/-- The registry's current definition for a key: follow the index into the
heap. -/
def regLookup (r : DefRegistry) (k : String) : Option SettingDefinition :=
  (mapGet r.index k).bind (fun ref => r.heap.get? ref)

theorem mapHas_eq_mem_keys {α : Type} (m : List (String × α)) (k : String) :
    mapHas m k = true ↔ k ∈ m.map Prod.fst := by
  induction m with
  | nil => simp [mapHas, mapGet]
  | cons p rest ih =>
    by_cases h : p.1 = k
    · simp [mapHas, mapGet, h]
    · simp only [mapHas, mapGet, h, if_false, List.map_cons, List.mem_cons]
      rw [← mapHas]
      constructor
      · intro hh
        exact Or.inr (ih.mp hh)
      · intro hh
        rcases hh with hh | hh
        · exact absurd hh.symm h
        · exact ih.mpr hh

theorem mapGet_cons {α : Type} (p : String × α) (rest : List (String × α))
    (k : String) :
    mapGet (p :: rest) k = if p.1 = k then some p.2 else mapGet rest k := rfl

theorem mapSet_cons {α : Type} (p : String × α) (rest : List (String × α))
    (k : String) (v : α) :
    mapSet (p :: rest) k v =
      if p.1 = k then (k, v) :: rest else p :: mapSet rest k v := rfl

theorem mapGet_foldl_mapSet {α : Type} (m : List (String × α)) :
    ∀ acc k, (m.map Prod.fst).Nodup →
      mapGet (m.foldl (fun acc p => mapSet acc p.1 p.2) acc) k =
        if mapHas m k then mapGet m k else mapGet acc k := by
  induction m with
  | nil =>
    intro acc k _
    simp [mapHas, mapGet]
  | cons p rest ih =>
    intro acc k hnodup
    rw [List.map_cons] at hnodup
    obtain ⟨hnotin, hrest⟩ := List.nodup_cons.mp hnodup
    simp only [List.foldl_cons]
    rw [ih (mapSet acc p.1 p.2) k hrest]
    by_cases hk : mapHas rest k = true
    · rw [if_pos hk]
      have hne : p.1 ≠ k := by
        intro heq
        exact hnotin (heq ▸ (mapHas_eq_mem_keys rest k).mp hk)
      have hhead : mapHas (p :: rest) k = true := by
        rw [mapHas, mapGet_cons, if_neg hne, ← mapHas]
        exact hk
      rw [if_pos hhead, mapGet_cons, if_neg hne]
    · rw [if_neg hk]
      by_cases hp : p.1 = k
      · have hhead : mapHas (p :: rest) k = true := by
          rw [mapHas, mapGet_cons, if_pos hp]
          rfl
        rw [if_pos hhead, mapGet_cons, if_pos hp, ← hp, mapGet_mapSet_self]
      · have hhead : ¬ mapHas (p :: rest) k = true := by
          rw [mapHas, mapGet_cons, if_neg hp, ← mapHas]
          exact hk
        rw [if_neg hhead, mapGet_mapSet_ne acc p.1 k p.2 hp]

theorem regGetAll_get (r : DefRegistry) (k : String)
    (hnodup : (r.index.map Prod.fst).Nodup) :
    mapGet (regGetAll r) k = mapGet r.index k := by
  unfold regGetAll
  rw [mapGet_foldl_mapSet r.index [] k hnodup]
  by_cases h : mapHas r.index k = true
  · rw [if_pos h]
  · rw [if_neg h]
    cases hg : mapGet r.index k with
    | none => rfl
    | some x =>
      rw [mapHas, hg] at h
      simp at h

theorem get?_set_self {α : Type} (l : List α) :
    ∀ i (d : α), i < l.length → (l.set i d).get? i = some d := by
  induction l with
  | nil =>
    intro i d h
    exact absurd h (by simp)
  | cons a rest ih =>
    intro i d h
    cases i with
    | zero => rfl
    | succ j => exact ih j d (by simpa using h)

/-- A second definition object for `theme`, used to overwrite the first. -/
def c9Mutated : SettingDefinition :=
  { key := "theme", defaultValue := .str "dark", type := .text }

/-- C9, counterexample.  The claim says any mutation of the structure
returned by `getAllSettings` — including modifying a returned definition
object — leaves the registry's definition state unchanged.  On the code this
is false: the returned record for a registry holding `theme` exposes the
reference `0` to the registry's own definition object, and writing through
that reference changes the registry's definition for `theme` (its default
value flips from `"light"` to `"dark"`). -/
theorem c9_counterexample :
    mapGet (regGetAll (regDefine ⟨[], []⟩ themeTextDef)) "theme" = some 0 ∧
    (regLookup (regDefine ⟨[], []⟩ themeTextDef) "theme").map
      (fun d => d.defaultValue) = some (Value.str "light") ∧
    (regLookup (heapWrite (regDefine ⟨[], []⟩ themeTextDef) 0 c9Mutated)
        "theme").map (fun d => d.defaultValue) = some (Value.str "dark") :=
  ⟨rfl, rfl, rfl⟩

/-- C9, amended: the record returned by `getAllSettings` is freshly built —
its entries merely agree with the registry's map, so adding, removing or
replacing record entries is invisible to the registry; but the definition
objects are shared by reference: writing through a reference listed in the
returned record changes the registry's definition for that key (while the
record/index structure itself is untouched). -/
theorem c9_snapshot_shares_refs (r : DefRegistry) (k : String) (ref : Nat)
    (d2 : SettingDefinition)
    (hnodup : (r.index.map Prod.fst).Nodup)
    (href : mapGet (regGetAll r) k = some ref)
    (hvalid : ref < r.heap.length) :
    mapGet r.index k = some ref ∧
    (heapWrite r ref d2).index = r.index ∧
    regLookup (heapWrite r ref d2) k = some d2 := by
  rw [regGetAll_get r k hnodup] at href
  refine ⟨href, rfl, ?_⟩
  show (mapGet (heapWrite r ref d2).index k).bind
    (fun rf => (heapWrite r ref d2).heap.get? rf) = some d2
  have h1 : (heapWrite r ref d2).index = r.index := rfl
  have h2 : (heapWrite r ref d2).heap = r.heap.set ref d2 := rfl
  rw [h1, h2, href]
  show (r.heap.set ref d2).get? ref = some d2
  exact get?_set_self r.heap ref d2 hvalid

/-- Witness for `c9_snapshot_shares_refs` at the one-definition registry. -/
theorem c9_witness :
    ((regDefine ⟨[], []⟩ themeTextDef).index.map Prod.fst).Nodup ∧
    mapGet (regGetAll (regDefine ⟨[], []⟩ themeTextDef)) "theme" = some 0 ∧
    0 < (regDefine ⟨[], []⟩ themeTextDef).heap.length ∧
    (mapGet (regDefine ⟨[], []⟩ themeTextDef).index "theme" = some 0 ∧
      (heapWrite (regDefine ⟨[], []⟩ themeTextDef) 0 c9Mutated).index =
        (regDefine ⟨[], []⟩ themeTextDef).index ∧
      regLookup (heapWrite (regDefine ⟨[], []⟩ themeTextDef) 0 c9Mutated)
        "theme" = some c9Mutated) :=
  ⟨by decide, rfl, by decide,
    c9_snapshot_shares_refs (regDefine ⟨[], []⟩ themeTextDef) "theme" 0 c9Mutated
      (by decide) rfl (by decide)⟩

/-! ## Claim C10: defaults are always seeded in the value store -/

/-- C10: in every reachable state, every key present in the defaults map is
also present in the value store; consequently `resetToDefault` applied to a
key with a recorded default, and `resetAllToDefaults`, never reach the
not-found failure branch of `setSetting` — they return normally. -/
theorem c10_defaults_always_seeded (st : SettingsState) (h : Reachable st) :
    DefaultsSeeded st ∧
    (∀ k dv, mapGet st.defaultSettings k = some dv →
      ∃ r, resetToDefault st k = .ok r) ∧
    (∃ r, resetAllToDefaults st = .ok r) := by
  have hinv := reachable_defaultsSeeded h
  refine ⟨hinv, ?_, ?_⟩
  · intro k dv hdv
    obtain ⟨r, hr⟩ := setSetting_ok_of_has st k dv
      (hinv k (by rw [mapHas, hdv]; rfl))
    refine ⟨r, ?_⟩
    rw [resetToDefault_eq st k dv hdv]
    exact hr
  · unfold resetAllToDefaults
    apply resetAllFrom_ok_of
    intro p hp
    exact hinv p.1 (mapHas_of_mem st.defaultSettings p.1 p.2 hp)

/-- Witness for `c10_defaults_always_seeded` at a concrete reachable state:
a fresh instance on which `theme` has been defined. -/
theorem c10_witness :
    DefaultsSeeded c2DefinedState ∧
    (∀ k dv, mapGet c2DefinedState.defaultSettings k = some dv →
      ∃ r, resetToDefault c2DefinedState k = .ok r) ∧
    (∃ r, resetAllToDefaults c2DefinedState = .ok r) :=
  c10_defaults_always_seeded c2DefinedState
    (Reachable.defined (initialFields "demo-settings" "1.0.0" .absent false)
      themeTextDef c2DefinedState
      (Reachable.init "demo-settings" "1.0.0" .absent false
        (initialFields "demo-settings" "1.0.0" .absent false) [] rfl) rfl)

end USS
